import Mathlib

/-!
# ai-calendar-backend: identity bridging and task ownership

A shallow embedding of the JavaScript sources

* `backend/server.js` (the `POST /verifyIdToken` handler),
* `src/supabaseClient.js` (`setSupabaseSession`, `syncFirebaseUserToSupabase`),
* `src/App.js` (`syncUserToSupabaseProfile`, `handleLogin`),
* `src/CalendarTasks.js` (`fetchTasks`, `handleAddTask`, `handleDeleteTask`),
* `src/components/PredictionComponent.js` (`handlePredict`),

followed by the theorems that settle the claims C1 .. C10 of the specification.

Conventions of the embedding.  An `async` function becomes a function from the
state it can touch to a `Completion`: the state it leaves plus the error it
threw, if any.  Every call that leaves the program (the identity provider, the
HTTP endpoint, `window.confirm`, `JSON.parse`) is a parameter, so a theorem
that quantifies over the parameter speaks about every outcome of that call.
Each function also appends what it did to a trace (requests passed to `fetch`,
calls of the verifier, console lines), so that "no request is sent" is a
statement about the trace.
-/

namespace AiCalendar

/-! ## JavaScript values -/

/-- JSON values, the data that crosses the HTTP boundary.  Numbers are kept as
integers: no claim depends on their value. -/
inductive Json where
  | null : Json
  | bool (b : Bool) : Json
  | num (n : Int) : Json
  | str (s : String) : Json
  | arr (items : List Json) : Json
  | obj (fields : List (String × Json)) : Json

namespace Json

/-- Property lookup `v.key` on an already evaluated value: `none` is the
JavaScript `undefined`. -/
def field (v : Json) (key : String) : Option Json :=
  match v with
  | .obj fields => (fields.find? (fun kv => kv.1 == key)).map Prod.snd
  | _ => none

/-- The test `Array.isArray(v)`. -/
def isArray : Json → Bool
  | .arr _ => true
  | _ => false

/-- The test `typeof v === "number"`. -/
def isNumber : Json → Bool
  | .num _ => true
  | _ => false

/-- JavaScript truthiness of a JSON value (`0`, `""`, `null`, `false` are falsy). -/
def truthy : Json → Bool
  | .null => false
  | .bool b => b
  | .num n => n != 0
  | .str s => s != ""
  | .arr _ => true
  | .obj _ => true

/-- The test `v === null`. -/
def isNull : Json → Bool
  | .null => true
  | _ => false

/-- Member access `data.key`: a TypeError on `null`, on any other value the
member, `undefined` when it is missing. -/
def member (data : Json) (key : String) : Except String (Option Json) :=
  match data with
  | .null => .error "TypeError: Cannot read properties of null"
  | _ => .ok (data.field key)

end Json

/-- The result of running a block of statements: the state it leaves and the
error it threw (`none` for normal completion). -/
structure Completion (σ : Type) where
  state : σ
  thrown : Option String

namespace Completion

/-- Normal completion. -/
def normal {σ : Type} (s : σ) : Completion σ := ⟨s, none⟩

/-- Abrupt completion: `throw e`. -/
def throw {σ : Type} (s : σ) (e : String) : Completion σ := ⟨s, some e⟩

/-- The statement `try { body } catch (e) { handler }`. -/
def tryCatch {σ : Type} (body : Completion σ) (handler : String → σ → Completion σ) :
    Completion σ :=
  match body.thrown with
  | none => body
  | some e => handler e body.state

/-- The statement `try { body } finally { fin }` for a `fin` that cannot throw. -/
def tryFinally {σ : Type} (body : Completion σ) (fin : σ → σ) : Completion σ :=
  ⟨fin body.state, body.thrown⟩

end Completion

/-! ## `backend/server.js` -/

/-- The decoded token the provider hands back: `decodedToken.uid` and
`decodedToken.email` are the only members the handler reads. -/
structure DecodedToken where
  uid : String
  email : Option String
  deriving DecidableEq, Repr

/-- Bodies the handler passes to `res.json`. -/
inductive ResBody where
  | identity (uid : String) (email : Option String) : ResBody
  | error (message : String) : ResBody
  deriving DecidableEq, Repr

/-- A response: `res.status(status).json(body)`. -/
structure Response where
  status : Nat
  body : ResBody
  deriving DecidableEq, Repr

/-- What the handler does, in order. -/
inductive ServerAction where
  | verifyCall (idToken : Option Json) : ServerAction
  | consoleLog (line : String) : ServerAction
  | consoleError (line : String) : ServerAction
  | respond (r : Response) : ServerAction

/-- A run of the handler: what it did, in order, and the error with which
the `async` function rejected, if any (`none`: it returned). -/
structure HandlerRun where
  actions : List ServerAction
  thrown : Option String

/-- The identity provider: `admin.auth().verifyIdToken`, resolving with a
decoded token or rejecting with an error message. -/
abbrev Verifier := Option Json → Except String DecodedToken

/-- The destructuring `const { key } = value`: a TypeError when `value` is
`undefined` (`none`) or `null`; on any other value the member, `undefined`
when it is missing. -/
def destructure (value : Option Json) (key : String) : Except String (Option Json) :=
  match value with
  | none => .error "TypeError: Cannot destructure property of undefined"
  | some v => v.member key

/-- The handler of `app.post('/verifyIdToken', ...)`, server.js lines 24-35.
`reqBody` is `req.body`, `none` when it is `undefined`.  The destructuring of
line 25 stands before the `try` of line 27: when it throws, the handler
rejects without having called the verifier or sent a response. -/
def verifyIdTokenHandler (verifyIdToken : Verifier) (reqBody : Option Json) : HandlerRun :=
  match destructure reqBody "idToken" with
  | .error e => { actions := [], thrown := some e }
  | .ok idToken =>
    match verifyIdToken idToken with
    | .ok decodedToken =>
        { actions :=
            [ .verifyCall idToken,
              .consoleLog ("✅ Token verified: " ++ decodedToken.uid),
              .respond ⟨200, .identity decodedToken.uid decodedToken.email⟩ ],
          thrown := none }
    | .error message =>
        { actions :=
            [ .verifyCall idToken,
              .consoleError ("❌ Token verification failed: " ++ message),
              .respond ⟨401, .error "Invalid token"⟩ ],
          thrown := none }

/-- The responses in a trace, in order. -/
def responses : List ServerAction → List Response
  | [] => []
  | .respond r :: rest => r :: responses rest
  | _ :: rest => responses rest

/-- The arguments of the verifier calls in a trace, in order. -/
def verifierCalls : List ServerAction → List (Option Json)
  | [] => []
  | .verifyCall t :: rest => t :: verifierCalls rest
  | _ :: rest => verifierCalls rest

/-- The idToken is missing, is not a string, or is the empty string. -/
def malformedIdToken : Option Json → Bool
  | some (.str s) => s == ""
  | _ => true

/-- A verifier that rejects every malformed idToken before any lookup and
accepts the token `"good"` for the subject `"u1"`. -/
def sampleVerifier : Verifier := fun t =>
  match t with
  | some (.str "good") => .ok ⟨"u1", some "a@b.com"⟩
  | _ => .error "Decoding Firebase ID token failed"

/-! ## `src/supabaseClient.js` -/

/-- The members of a Firebase user object that the sources read. -/
structure FirebaseUser where
  uid : String
  email : Option String
  displayName : Option String
  photoURL : Option String
  deriving DecidableEq, Repr

/-- The argument object of `supabase.auth.setSession`. -/
structure SessionArgs where
  access_token : String
  refresh_token : String
  deriving DecidableEq, Repr

/-- What the functions of supabaseClient.js do, in order. -/
inductive SupabaseAction where
  | setSession (args : SessionArgs) : SupabaseAction
  | consoleLog (line : String) : SupabaseAction
  | consoleWarn (line : String) : SupabaseAction
  | consoleError (line : String) : SupabaseAction
  deriving DecidableEq, Repr

/-- The function `setSupabaseSession`, supabaseClient.js lines 12-23.  The
parameter `setSession` is `supabase.auth.setSession`, returning the `error`
member of its result. -/
def setSupabaseSession (setSession : SessionArgs → Option String) (firebaseToken : String) :
    List SupabaseAction :=
  let args : SessionArgs := { access_token := firebaseToken, refresh_token := firebaseToken }
  match setSession args with
  | some message =>
      [.setSession args, .consoleError ("❌ Error setting Supabase session: " ++ message)]
  | none =>
      [.setSession args, .consoleLog "✅ Supabase session set successfully"]

/-- The session artifacts submitted to `supabase.auth.setSession` in a trace. -/
def submittedSessions : List SupabaseAction → List SessionArgs
  | [] => []
  | .setSession a :: rest => a :: submittedSessions rest
  | _ :: rest => submittedSessions rest

/-- A row of the `profiles` table, restricted to the columns the client writes. -/
structure ProfileRow where
  id : String
  email : Option String
  full_name : Option String
  avatar_url : Option String
  deriving DecidableEq, Repr

/-- The `profiles` table. -/
abbrev Profiles := List ProfileRow

/-- The result object of a table operation: the table it leaves and the
`error` member the caller destructures. -/
structure UpsertResult where
  table : Profiles
  error : Option String
  deriving DecidableEq, Repr

/-- Modelled from the spec: the upsert of the `profiles` table with
`onConflict: ['id']`, which is performed by the Supabase service and is not
part of the sources.  Spec 4.2: "insert if absent, else update mutable fields
(email, full_name, avatar_url) leaving id untouched".  In this store model the
operation itself does not fail. -/
def upsert (row : ProfileRow) (table : Profiles) : UpsertResult :=
  if table.any (fun r => r.id == row.id) then
    { table := table.map (fun r =>
        if r.id == row.id then
          { r with email := row.email, full_name := row.full_name, avatar_url := row.avatar_url }
        else r),
      error := none }
  else
    { table := table ++ [row], error := none }

/-- The row update that `upsert` performs on a conflict, as a function of its
own: the written columns are replaced, the id is kept. -/
def mergeRow (row r : ProfileRow) : ProfileRow :=
  if r.id == row.id then
    { r with email := row.email, full_name := row.full_name, avatar_url := row.avatar_url }
  else r

/-- The function `syncFirebaseUserToSupabase`, supabaseClient.js lines 29-52:
the table it leaves and the console lines it writes. -/
def syncFirebaseUserToSupabase (firebaseUser : Option FirebaseUser) (table : Profiles) :
    Profiles × List SupabaseAction :=
  match firebaseUser with
  | none => (table, [.consoleWarn "⚠️ Firebase user is null. Skipping profile sync."])
  | some u =>
      let result := upsert
        { id := u.uid, email := u.email, full_name := u.displayName, avatar_url := u.photoURL }
        table
      match result.error with
      | some message =>
          (result.table, [.consoleError ("❌ Error syncing user to Supabase: " ++ message)])
      | none =>
          (result.table, [.consoleLog "✅ User synced to Supabase profiles table"])

/-- The rows of a table with a given id. -/
def rowsWithId (id : String) (table : Profiles) : Profiles :=
  table.filter (fun r => r.id == id)

/-- The rows of a table with any other id, in table order. -/
def rowsWithOtherId (id : String) (table : Profiles) : Profiles :=
  table.filter (fun r => r.id != id)

/-- At most one row per id. -/
def UniqueIds (table : Profiles) : Prop :=
  (table.map (fun r => r.id)).Nodup

instance (table : Profiles) : Decidable (UniqueIds table) := by
  unfold UniqueIds; infer_instance

/-! ## The browser side: requests, outside world, component state -/

/-- A request as passed to `fetch(url, options)`; `body` is the value handed
to `JSON.stringify`. -/
structure HttpRequest where
  method : String
  url : String
  headers : List (String × String)
  body : Option Json

/-- The outcome of `await fetch(...)`: the promise rejects, or it resolves
with a response whose `ok` flag and `json()` outcome are given. -/
inductive FetchResult where
  | rejected (message : String) : FetchResult
  | resolved (ok : Bool) (json : Except String Json) : FetchResult

/-- A JavaScript `Date` held in component state: a valid date, identified by
the text its `toISOString()` returns, or an Invalid Date. -/
inductive JsDate where
  | valid (iso : String) : JsDate
  | invalid : JsDate
  deriving DecidableEq, Repr

/-- The method `Date.prototype.toISOString`: a RangeError on an Invalid Date. -/
def JsDate.toISOString : JsDate → Except String String
  | .valid iso => .ok iso
  | .invalid => .error "RangeError: Invalid time value"

/-- Everything outside the component, over a state `β` of the outside world
(the identity provider, the network and the services behind it, the user at
the dialog).  Each call may read and change that state, so successive calls
may have different outcomes. -/
structure Env (β : Type) where
  /-- The global `auth.currentUser`. -/
  currentUser : β → Option FirebaseUser
  /-- The call `user.getIdToken(forceRefresh)`. -/
  getIdToken : FirebaseUser → Bool → β → Except String String × β
  /-- The call `fetch(url, options)`. -/
  fetch : HttpRequest → β → FetchResult × β
  /-- The call `signInWithPopup(auth, provider)`. -/
  signInWithPopup : β → Except String FirebaseUser × β
  /-- The dialog `window.confirm(...)`, given the title shown in the prompt. -/
  confirm : Option Json → β → Bool × β
  /-- The call `JSON.parse(text)`. -/
  jsonParse : String → Except String Json

/-- A running component: its React state `comp`, the outside world `ext`, the
requests passed to `fetch` so far and the console lines written so far. -/
structure Client (σ β : Type) where
  comp : σ
  ext : β
  sent : List HttpRequest
  console : List String

namespace Client

variable {σ β : Type}

/-- A state update `setX(...)`. -/
def update (w : Client σ β) (f : σ → σ) : Client σ β := { w with comp := f w.comp }

/-- A console line (`console.log`, `console.error`). -/
def log (w : Client σ β) (line : String) : Client σ β :=
  { w with console := w.console ++ [line] }

/-- The call `await user.getIdToken(forceRefresh)`. -/
def getIdToken (env : Env β) (user : FirebaseUser) (forceRefresh : Bool) (w : Client σ β) :
    Except String String × Client σ β :=
  let r := env.getIdToken user forceRefresh w.ext
  (r.1, { w with ext := r.2 })

/-- The call `await fetch(url, options)`: the request is recorded as sent. -/
def fetch (env : Env β) (req : HttpRequest) (w : Client σ β) : FetchResult × Client σ β :=
  let r := env.fetch req w.ext
  (r.1, { w with ext := r.2, sent := w.sent ++ [req] })

end Client

/-! ## `src/App.js` -/

/-- The React state of `App`. -/
structure AppState where
  user : Option FirebaseUser
  copied : Bool
  copyError : Option String
  deriving DecidableEq, Repr

/-- The JSON of an optional string member (`null` when absent). -/
def optStr : Option String → Json
  | some s => .str s
  | none => .null

/-- The function `syncUserToSupabaseProfile`, App.js lines 19-43. -/
def syncUserToSupabaseProfile {β : Type} (env : Env β) (firebaseUser : FirebaseUser)
    (w : Client AppState β) : Completion (Client AppState β) :=
  Completion.tryCatch
    (match w.getIdToken env firebaseUser true with
     | (.error e, w1) => .throw w1 e
     | (.ok token, w1) =>
        let w2 := w1.log ("🔑 Fresh Firebase ID Token (sync): " ++ token)
        let req : HttpRequest :=
          { method := "POST",
            url := "http://localhost:5000/sync-profile",
            headers := [("Content-Type", "application/json"),
                        ("Authorization", "Bearer " ++ token)],
            body := some (.obj [("email", optStr firebaseUser.email),
                                ("full_name", optStr firebaseUser.displayName),
                                ("avatar_url", optStr firebaseUser.photoURL),
                                ("id", .str firebaseUser.uid)]) }
        match w2.fetch env req with
        | (.rejected e, w3) => .throw w3 e
        | (.resolved ok _, w3) =>
            if !ok then .throw w3 "Profile sync failed"
            else .normal (w3.log "✅ Profile synced via backend"))
    (fun e w1 => .normal (w1.log ("❌ Failed to sync profile: " ++ e)))

/-- The function `handleLogin`, App.js lines 63-77. -/
def handleLogin {β : Type} (env : Env β) (w : Client AppState β) :
    Completion (Client AppState β) :=
  Completion.tryCatch
    (match env.signInWithPopup w.ext with
     | (.error e, ext1) => .throw { w with ext := ext1 } e
     | (.ok firebaseUser, ext1) =>
        let c := syncUserToSupabaseProfile env firebaseUser { w with ext := ext1 }
        match c.thrown with
        | some e => .throw c.state e
        | none =>
            let w2 := c.state.update (fun s => { s with user := some firebaseUser })
            match w2.getIdToken env firebaseUser true with
            | (.error e, w3) => .throw w3 e
            | (.ok freshToken, w3) =>
                .normal (w3.log ("🔑 Fresh Firebase ID Token (login): " ++ freshToken)))
    (fun e w1 => .normal (w1.log ("❌ Login error: " ++ e)))

/-! ## `src/CalendarTasks.js` -/

/-- The object `new Date(arg)` built from a member of a task; the
construction is kept unevaluated. -/
structure NewDate where
  arg : Option Json

/-- An event of the calendar: `{id, title, start, end}`; the member `end` is
named `finish` here, `end` being a keyword. -/
structure CalEvent where
  id : Option Json
  title : Option Json
  start : NewDate
  finish : NewDate

/-- The React state of `CalendarTasks`, with the initial values of lines 10-14. -/
structure CalendarState where
  events : List CalEvent := []
  selectedSlot : Option JsDate := none
  taskDescription : String := ""
  loading : Bool := true
  error : Option String := none

/-- The callback of `data.map`, lines 31-36: reading a member of `null`
throws a TypeError, on any other value a missing member is `undefined`. -/
def formatEvent (task : Json) : Except String CalEvent :=
  match task with
  | .null => .error "TypeError: Cannot read properties of null"
  | _ => .ok { id := task.field "id",
               title := task.field "description",
               start := ⟨task.field "date"⟩,
               finish := ⟨task.field "date"⟩ }

/-- The expression `data.map((task) => ...)`, lines 31-36: a TypeError when
`data` is not an array. -/
def formatEvents (data : Json) : Except String (List CalEvent) :=
  match data with
  | .arr tasks => tasks.mapM formatEvent
  | _ => .error "TypeError: data.map is not a function"

/-- The function `fetchTasks`, CalendarTasks.js lines 18-45. -/
def fetchTasks {β : Type} (env : Env β) (w : Client CalendarState β) :
    Completion (Client CalendarState β) :=
  let w := w.update (fun s => { s with loading := true })
  let w := w.update (fun s => { s with error := none })
  match env.currentUser w.ext with
  | none => .normal w
  | some user =>
    Completion.tryFinally
      (Completion.tryCatch
        (match w.getIdToken env user false with
         | (.error e, w1) => .throw w1 e
         | (.ok token, w1) =>
            let req : HttpRequest :=
              { method := "GET",
                url := "http://localhost:5000/tasks",
                headers := [("Authorization", "Bearer " ++ token)],
                body := none }
            match w1.fetch env req with
            | (.rejected e, w2) => .throw w2 e
            | (.resolved _ (.error e), w2) => .throw w2 e
            | (.resolved _ (.ok data), w2) =>
                match formatEvents data with
                | .error e => .throw w2 e
                | .ok formattedEvents =>
                    .normal (w2.update (fun s => { s with events := formattedEvents })))
        (fun e w1 =>
          .normal ((w1.log e).update (fun s => { s with error := some "Failed to fetch tasks." }))))
      (fun w1 => w1.update (fun s => { s with loading := false }))

/-- The function `handleAddTask`, CalendarTasks.js lines 55-84.  The call
`fetchTasks()` of line 76 is not awaited; it is run to completion at the call. -/
def handleAddTask {β : Type} (env : Env β) (w : Client CalendarState β) :
    Completion (Client CalendarState β) :=
  match env.currentUser w.ext, w.comp.taskDescription == "", w.comp.selectedSlot with
  | none, _, _ => .normal w
  | some _, true, _ => .normal w
  | some _, false, none => .normal w
  | some user, false, some selectedSlot =>
    Completion.tryCatch
      (match w.getIdToken env user false with
       | (.error e, w1) => .throw w1 e
       | (.ok token, w1) =>
          match selectedSlot.toISOString with
          | .error e => .throw w1 e
          | .ok iso =>
            let req : HttpRequest :=
              { method := "POST",
                url := "http://localhost:5000/tasks",
                headers := [("Content-Type", "application/json"),
                            ("Authorization", "Bearer " ++ token)],
                body := some (.obj [("description", .str w.comp.taskDescription),
                                    ("date", .str iso)]) }
            match w1.fetch env req with
            | (.rejected e, w2) => .throw w2 e
            | (.resolved true _, w2) =>
                let w3 := w2.update (fun s => { s with taskDescription := "" })
                let w4 := w3.update (fun s => { s with selectedSlot := none })
                .normal (fetchTasks env w4).state
            | (.resolved false _, w2) =>
                .normal (w2.update (fun s => { s with error := some "Failed to add task." })))
      (fun e w1 =>
        .normal ((w1.log e).update (fun s => { s with error := some "Error adding task." })))

/-- The function `handleDeleteTask`, CalendarTasks.js lines 86-112.  The call
`fetchTasks()` of line 104 is not awaited; it is run to completion at the call. -/
def handleDeleteTask {β : Type} (env : Env β) (event : CalEvent) (w : Client CalendarState β) :
    Completion (Client CalendarState β) :=
  match env.currentUser w.ext with
  | none => .normal w
  | some user =>
    match env.confirm event.title w.ext with
    | (false, ext1) => .normal { w with ext := ext1 }
    | (true, ext1) =>
      Completion.tryCatch
        (match ({ w with ext := ext1 } : Client CalendarState β).getIdToken env user false with
         | (.error e, w1) => .throw w1 e
         | (.ok token, w1) =>
            let req : HttpRequest :=
              { method := "DELETE",
                url := "http://localhost:5000/tasks",
                headers := [("Content-Type", "application/json"),
                            ("Authorization", "Bearer " ++ token)],
                body := some (.obj (match event.id with
                                    | some id => [("id", id)]
                                    | none => [])) }
            match w1.fetch env req with
            | (.rejected e, w2) => .throw w2 e
            | (.resolved true _, w2) => .normal (fetchTasks env w2).state
            | (.resolved false _, w2) =>
                .normal (w2.update (fun s => { s with error := some "Failed to delete task." })))
        (fun e w1 =>
          .normal ((w1.log e).update (fun s => { s with error := some "Error deleting task." })))

/-- The `POST` requests of a trace that went to the `/tasks` endpoint. -/
def tasksPosts (sent : List HttpRequest) : List HttpRequest :=
  sent.filter (fun r => r.url == "http://localhost:5000/tasks" && r.method == "POST")

/-! ## `src/components/PredictionComponent.js` -/

/-- The React state of `PredictionComponent`, with the initial values of
lines 4-7; `prediction = none` is the JavaScript `null`. -/
structure PredictionState where
  features : String := ""
  prediction : Option Json := none
  error : Json := .str ""
  loading : Bool := false

/-- The expression `data.error || "Prediction failed."`. -/
def errorOrDefault : Option Json → Json
  | some v => if v.truthy then v else .str "Prediction failed."
  | none => .str "Prediction failed."

/-- The message set by the `catch` block of `handlePredict`, line 34. -/
def invalidInputMessage : String :=
  "Invalid input. Please enter a valid JSON array (e.g. [1.2, 3.4])."

/-- The function `handlePredict`, PredictionComponent.js lines 9-38. -/
def handlePredict {β : Type} (env : Env β) (w : Client PredictionState β) :
    Completion (Client PredictionState β) :=
  let w := w.update (fun s => { s with error := .str "" })
  let w := w.update (fun s => { s with prediction := none })
  let w := w.update (fun s => { s with loading := true })
  Completion.tryFinally
    (Completion.tryCatch
      (match env.jsonParse w.comp.features with
       | .error e => .throw w e
       | .ok parsedFeatures =>
          if !parsedFeatures.isArray then .throw w "Input must be a JSON array."
          else
            let req : HttpRequest :=
              { method := "POST",
                url := "http://localhost:5000/predict",
                headers := [("Content-Type", "application/json")],
                body := some (.obj [("features", parsedFeatures)]) }
            match w.fetch env req with
            | (.rejected e, w1) => .throw w1 e
            | (.resolved _ (.error e), w1) => .throw w1 e
            | (.resolved true (.ok data), w1) =>
                (match data.member "prediction" with
                 | .error e => .throw w1 e
                 | .ok p => .normal (w1.update (fun s => { s with prediction := p })))
            | (.resolved false (.ok data), w1) =>
                (match data.member "error" with
                 | .error e => .throw w1 e
                 | .ok v => .normal (w1.update (fun s => { s with error := errorOrDefault v }))))
      (fun _ w1 => .normal (w1.update (fun s => { s with error := .str invalidInputMessage }))))
    (fun w1 => w1.update (fun s => { s with loading := false }))

/-- The requests of a trace that went to the `/predict` endpoint. -/
def predictRequests (sent : List HttpRequest) : List HttpRequest :=
  sent.filter (fun r => r.url == "http://localhost:5000/predict")

/-- The validation the specification asks for: a non-empty array all of
whose elements are numbers. -/
def nonEmptyNumericArray : Json → Bool
  | .arr items => !items.isEmpty && items.all Json.isNumber
  | _ => false

/-- A stand-in for `JSON.parse` that agrees with it on the three texts it
accepts and reports a syntax error on every other text. -/
def sampleJsonParse (text : String) : Except String Json :=
  if text == "[]" then .ok (.arr [])
  else if text == "[1, 2]" then .ok (.arr [.num 1, .num 2])
  else if text == "\x7b\x7d" then .ok (.obj [])
  else .error "SyntaxError: Unexpected token"

/-- An outside world without state in which nobody is signed in, every token
request and every sign-in fails, every request is answered `200 {}` and every
dialog is declined. -/
def signedOutEnv : Env Unit :=
  { currentUser := fun _ => none,
    getIdToken := fun _ _ b => (.error "auth/network-request-failed", b),
    fetch := fun _ b => (.resolved true (.ok (.obj [])), b),
    signInWithPopup := fun b => (.error "auth/popup-closed-by-user", b),
    confirm := fun _ b => (false, b),
    jsonParse := sampleJsonParse }

/-- The user of the examples. -/
def alice : FirebaseUser :=
  { uid := "u1", email := some "a@b.com", displayName := some "Alice", photoURL := none }

/-- An outside world without state in which `alice` is signed in, sign-in
succeeds, requests are answered `200 {}`, dialogs are accepted, and token
requests succeed or fail as `tokenOk` says. -/
def signedInEnv (tokenOk : Bool) : Env Unit :=
  { currentUser := fun _ => some alice,
    getIdToken := fun _ _ b =>
      (if tokenOk then .ok "token-u1" else .error "auth/network-request-failed", b),
    fetch := fun _ b => (.resolved true (.ok (.obj [])), b),
    signInWithPopup := fun b => (.ok alice, b),
    confirm := fun _ b => (true, b),
    jsonParse := sampleJsonParse }

/-- A freshly mounted component in a world without state. -/
def freshClient {σ : Type} (s : σ) : Client σ Unit :=
  { comp := s, ext := (), sent := [], console := [] }

/-- The `POST /predict` request of `handlePredict`. -/
def predictRequest (parsedFeatures : Json) : HttpRequest :=
  { method := "POST",
    url := "http://localhost:5000/predict",
    headers := [("Content-Type", "application/json")],
    body := some (.obj [("features", parsedFeatures)]) }

/-- The `POST /tasks` request of `handleAddTask`. -/
def addTaskRequest (token description iso : String) : HttpRequest :=
  { method := "POST",
    url := "http://localhost:5000/tasks",
    headers := [("Content-Type", "application/json"), ("Authorization", "Bearer " ++ token)],
    body := some (.obj [("description", .str description), ("date", .str iso)]) }

/-! ## The Task Store behind `/tasks`

The server that answers `/tasks` (a Flask backend, by the comment on App.js
line 18) is not among the sources; it is modelled from sections 4.4 and 6 of
the specification. -/

/-- A task record, spec section 3; the opaque id is a counter value. -/
structure Task where
  id : Nat
  owner_id : String
  description : String
  occurs_at : String
  deriving DecidableEq, Repr

/-- The task table and the next fresh id. -/
structure TaskStore where
  tasks : List Task := []
  nextId : Nat := 0
  deriving DecidableEq, Repr

/-- The failures of the Task Store, spec section 7. -/
inductive TaskError where
  | unauthenticated : TaskError
  | validationError : TaskError
  | notFound : TaskError
  | forbidden : TaskError
  deriving DecidableEq, Repr

/-- Modelled from the spec: the operation `listTasks(owner_id)` of the Task
Store, whose code is missing; it "returns only tasks owned by owner_id". -/
def listTasks (owner_id : String) (st : TaskStore) : List Task :=
  st.tasks.filter (fun t => t.owner_id == owner_id)

/-- Modelled from the spec: the operation `createTask(owner_id, description,
occurs_at)` of the Task Store, whose code is missing; it "assigns a fresh
opaque id; fails with ValidationError if description is empty or occurs_at is
unparsable".  What counts as parsable is the parameter `parsable`. -/
def createTask (parsable : String → Bool) (owner_id description occurs_at : String)
    (st : TaskStore) : Except TaskError (Task × TaskStore) :=
  if description == "" || !parsable occurs_at then .error .validationError
  else
    let t : Task := ⟨st.nextId, owner_id, description, occurs_at⟩
    .ok (t, { tasks := st.tasks ++ [t], nextId := st.nextId + 1 })

/-- Modelled from the spec: the operation `deleteTask(owner_id, task_id)` of
the Task Store, whose code is missing; "Forbidden if the task exists but its
owner_id differs from the caller; NotFound if no task with that id exists". -/
def deleteTask (owner_id : String) (task_id : Nat) (st : TaskStore) :
    Except TaskError TaskStore :=
  match st.tasks.find? (fun t => t.id == task_id) with
  | none => .error .notFound
  | some t =>
      if t.owner_id != owner_id then .error .forbidden
      else .ok { st with tasks := st.tasks.filter (fun t => t.id != task_id) }

/-- The rest of a text after a leading text, if it starts with it. -/
def dropLeading : List Char → List Char → Option (List Char)
  | [], s => some s
  | _ :: _, [] => none
  | p :: ps, c :: cs => if p == c then dropLeading ps cs else none

/-- The token of a request's `Authorization: Bearer <token>` header. -/
def bearerToken (req : HttpRequest) : Option String :=
  match req.headers.find? (fun h => h.1 == "Authorization") with
  | some h => (dropLeading "Bearer ".data h.2.data).map String.mk
  | none => none

/-- The JSON of a task on the wire, spec section 6: `{id, description, date}`. -/
def taskJson (t : Task) : Json :=
  .obj [("id", .num t.id), ("description", .str t.description), ("date", .str t.occurs_at)]

/-- An error answer `4xx {error}`. -/
def errorAnswer (message : String) (st : TaskStore) : FetchResult × TaskStore :=
  (.resolved false (.ok (.obj [("error", .str message)])), st)

/-- Modelled from the spec: the endpoints `GET /tasks`, `POST /tasks` and
`DELETE /tasks` of section 6, whose code is missing.  The caller is the
subject of the verified bearer token (`verify` is the Token Verifier of
section 4.1); every operation requires one and is confined to that owner. -/
def tasksEndpoint (verify : String → Option String) (parsable : String → Bool)
    (req : HttpRequest) (st : TaskStore) : FetchResult × TaskStore :=
  match (bearerToken req).bind verify with
  | none => errorAnswer "Unauthenticated" st
  | some owner =>
    if req.method == "GET" then
      (.resolved true (.ok (.arr ((listTasks owner st).map taskJson))), st)
    else if req.method == "POST" then
      match req.body.bind (fun b => b.field "description"),
            req.body.bind (fun b => b.field "date") with
      | some (.str description), some (.str date) =>
          (match createTask parsable owner description date st with
           | .ok (t, st1) => (.resolved true (.ok (taskJson t)), st1)
           | .error _ => errorAnswer "ValidationError" st)
      | _, _ => errorAnswer "ValidationError" st
    else if req.method == "DELETE" then
      match req.body.bind (fun b => b.field "id") with
      | some (.num (.ofNat task_id)) =>
          (match deleteTask owner task_id st with
           | .ok st1 => (.resolved true (.ok (.obj [])), st1)
           | .error _ => errorAnswer "NotFound" st)
      | _ => errorAnswer "NotFound" st
    else errorAnswer "Method Not Allowed" st

/-! ## The whole system: one browser, the identity provider, the Task Store -/

/-- The world outside the `CalendarTasks` component: the Task Store, the user
signed in at the identity provider, the answer the user gives to the next
confirmation dialog, and a script of failures: each token request and each
HTTP request consumes one entry, `true` making that call fail (an exhausted
script means no failure). -/
structure TaskWorld where
  store : TaskStore := {}
  signedIn : Option FirebaseUser := none
  confirmAnswer : Bool := true
  faults : List Bool := []
  deriving DecidableEq, Repr

/-- The outside world as the component sees it.  The identity provider
issues the token `issue uid` to the user `uid`; requests that are not lost
reach `tasksEndpoint`. -/
def worldEnv (issue : String → String) (verify : String → Option String)
    (parsable : String → Bool) : Env TaskWorld :=
  { currentUser := fun b => b.signedIn,
    getIdToken := fun u _ b =>
      match b.faults with
      | true :: rest => (.error "auth/network-request-failed", { b with faults := rest })
      | _ => (.ok (issue u.uid), { b with faults := b.faults.tail }),
    fetch := fun req b =>
      match b.faults with
      | true :: rest => (.rejected "TypeError: Failed to fetch", { b with faults := rest })
      | _ =>
        let r := tasksEndpoint verify parsable req b.store
        (r.1, { b with store := r.2, faults := b.faults.tail }),
    signInWithPopup := fun b =>
      match b.signedIn with
      | some u => (.ok u, b)
      | none => (.error "auth/popup-closed-by-user", b),
    confirm := fun _ b => (b.confirmAnswer, b),
    jsonParse := fun _ => .error "SyntaxError" }

/-- What can happen to the component, one step at a time. -/
inductive UserAction where
  | signIn (u : FirebaseUser) : UserAction
  | signOut : UserAction
  | typeDescription (text : String) : UserAction
  | selectSlot (start : JsDate) : UserAction
  | refresh : UserAction
  | add : UserAction
  | delete (event : CalEvent) (confirmed : Bool) : UserAction

/-- The system: the component in its world, and a record kept for the
statement of ownership: `created` lists `(uid, task id)` for every task id
that came into being during a run of `handleAddTask` with `uid` signed in. -/
structure System where
  client : Client CalendarState TaskWorld
  created : List (String × Nat)

/-- The ids that came into being between two states of the store. -/
def newIds (before after : TaskStore) : List Nat :=
  List.range' before.nextId (after.nextId - before.nextId)

/-- One step of the system. -/
def System.step (env : Env TaskWorld) (sys : System) : UserAction → System
  | .signIn u =>
      { sys with client := { sys.client with ext := { sys.client.ext with signedIn := some u } } }
  | .signOut =>
      { sys with client := { sys.client with ext := { sys.client.ext with signedIn := none } } }
  | .typeDescription text =>
      { sys with client := sys.client.update (fun s => { s with taskDescription := text }) }
  | .selectSlot start =>
      { sys with client := sys.client.update (fun s => { s with selectedSlot := some start }) }
  | .refresh => { sys with client := (fetchTasks env sys.client).state }
  | .add =>
      let after := (handleAddTask env sys.client).state
      { client := after,
        created := sys.created ++
          match sys.client.ext.signedIn with
          | some u => (newIds sys.client.ext.store after.ext.store).map (fun i => (u.uid, i))
          | none => [] }
  | .delete event confirmed =>
      let w : Client CalendarState TaskWorld :=
        { sys.client with ext := { sys.client.ext with confirmAnswer := confirmed } }
      { sys with client := (handleDeleteTask env event w).state }

/-- A run of the system. -/
def System.run (env : Env TaskWorld) (sys : System) (actions : List UserAction) : System :=
  actions.foldl (System.step env) sys

/-- The freshly mounted component, nobody signed in, an empty Task Store. -/
def System.initial (faults : List Bool) : System :=
  { client := { comp := {}, ext := { faults := faults }, sent := [], console := [] },
    created := [] }

/-- The identity provider and verifier of the examples: the token of `uid`
is `"token-" ++ uid`. -/
def sampleIssue (uid : String) : String := "token-" ++ uid

/-- The verifier that goes with `sampleIssue`. -/
def sampleVerify (token : String) : Option String :=
  (dropLeading "token-".data token.data).map String.mk

/-- A second user of the examples. -/
def bob : FirebaseUser :=
  { uid := "u2", email := some "b@b.com", displayName := some "Bob", photoURL := none }

/-- The event that `fetchTasks` builds from a task on the wire. -/
def eventOfTask (t : Task) : CalEvent :=
  { id := some (.num t.id),
    title := some (.str t.description),
    start := ⟨some (.str t.occurs_at)⟩,
    finish := ⟨some (.str t.occurs_at)⟩ }

/-- A new task of `owner` appended to the store under the next fresh id. -/
def TaskStore.push (st : TaskStore) (owner description date : String) : TaskStore :=
  { tasks := st.tasks ++ [⟨st.nextId, owner, description, date⟩], nextId := st.nextId + 1 }

/-- Some tasks removed from the store, none added, no id consumed. -/
def TaskStore.Shrunk (st st1 : TaskStore) : Prop :=
  st1.nextId = st.nextId ∧ ∀ t ∈ st1.tasks, t ∈ st.tasks

/-- The invariant of the system: every stored task was created by its owner,
every created id is below the next fresh id, and no id was created twice by
different users. -/
def OwnershipInv (st : TaskStore) (created : List (String × Nat)) : Prop :=
  (∀ t ∈ st.tasks, (t.owner_id, t.id) ∈ created) ∧
  (∀ p ∈ created, p.2 < st.nextId) ∧
  (∀ p ∈ created, ∀ q ∈ created, p.2 = q.2 → p.1 = q.1)

/-! ## Theorems: `backend/server.js` -/

theorem Json.member_of_not_null (v : Json) (key : String) (h : v.isNull = false) :
    v.member key = .ok (v.field key) := by
  cases v <;> first | rfl | cases h

theorem handler_ok (v : Verifier) (b : Json) (hb : b.isNull = false) (d : DecodedToken)
    (h : v (b.field "idToken") = .ok d) :
    verifyIdTokenHandler v (some b) =
      { actions :=
          [ .verifyCall (b.field "idToken"),
            .consoleLog ("✅ Token verified: " ++ d.uid),
            .respond ⟨200, .identity d.uid d.email⟩ ],
        thrown := none } := by
  simp [verifyIdTokenHandler, destructure, Json.member_of_not_null b "idToken" hb, h]

theorem handler_error (v : Verifier) (b : Json) (hb : b.isNull = false) (e : String)
    (h : v (b.field "idToken") = .error e) :
    verifyIdTokenHandler v (some b) =
      { actions :=
          [ .verifyCall (b.field "idToken"),
            .consoleError ("❌ Token verification failed: " ++ e),
            .respond ⟨401, .error "Invalid token"⟩ ],
        thrown := none } := by
  simp [verifyIdTokenHandler, destructure, Json.member_of_not_null b "idToken" hb, h]

/-- C1 as stated fails: on a request whose `req.body` is `undefined`, and on
one whose `req.body` is `null`, the destructuring of line 25 throws outside
the `try`: the handler rejects, having sent no response and called no
verifier. -/
theorem verifyIdToken_throws_without_body :
    (verifyIdTokenHandler sampleVerifier none).thrown
      = some "TypeError: Cannot destructure property of undefined" ∧
    responses (verifyIdTokenHandler sampleVerifier none).actions = [] ∧
    (verifierCalls (verifyIdTokenHandler sampleVerifier none).actions).length = 0 ∧
    (verifyIdTokenHandler sampleVerifier (some .null)).thrown
      = some "TypeError: Cannot read properties of null" ∧
    responses (verifyIdTokenHandler sampleVerifier (some .null)).actions = [] ∧
    (verifierCalls (verifyIdTokenHandler sampleVerifier (some .null)).actions).length = 0 := by
  refine ⟨rfl, rfl, rfl, rfl, rfl, rfl⟩

/-- C1, amended. For every verifier and every request whose `req.body` is
neither `undefined` nor `null`, the handler of `POST /verifyIdToken` returns
without throwing and answers exactly once; the answer is `200 {uid, email}`
of the decoded token when the verifier accepts the idToken and
`401 {error: 'Invalid token'}` when it rejects it; the status is 200 exactly
when verification succeeds; and two decoded tokens with the same uid yield
the same uid in the answer, whatever their emails. -/
theorem verifyIdToken_answers_once (verifyIdToken : Verifier) (reqBody : Json)
    (hbody : reqBody.isNull = false) :
    (verifyIdTokenHandler verifyIdToken (some reqBody)).thrown = none ∧
    (∀ d, verifyIdToken (reqBody.field "idToken") = .ok d →
        responses (verifyIdTokenHandler verifyIdToken (some reqBody)).actions
          = [⟨200, .identity d.uid d.email⟩]) ∧
    (∀ e, verifyIdToken (reqBody.field "idToken") = .error e →
        responses (verifyIdTokenHandler verifyIdToken (some reqBody)).actions
          = [⟨401, .error "Invalid token"⟩]) ∧
    (∃ r, responses (verifyIdTokenHandler verifyIdToken (some reqBody)).actions = [r] ∧
        (r.status = 200 ∨ r.status = 401) ∧
        (r.status = 200 ↔ ∃ d, verifyIdToken (reqBody.field "idToken") = .ok d)) ∧
    (∀ (v2 : Verifier) (body2 : Json) (d1 d2 : DecodedToken), body2.isNull = false →
        verifyIdToken (reqBody.field "idToken") = .ok d1 →
        v2 (body2.field "idToken") = .ok d2 → d1.uid = d2.uid →
        ∃ e1 e2, responses (verifyIdTokenHandler verifyIdToken (some reqBody)).actions
                    = [⟨200, .identity d1.uid e1⟩] ∧
                 responses (verifyIdTokenHandler v2 (some body2)).actions
                    = [⟨200, .identity d1.uid e2⟩]) := by
  have hok : ∀ (v : Verifier) (b : Json) (d : DecodedToken), b.isNull = false →
      v (b.field "idToken") = .ok d →
      responses (verifyIdTokenHandler v (some b)).actions
        = [⟨200, .identity d.uid d.email⟩] := by
    intro v b d hb h
    rw [handler_ok v b hb d h]
    rfl
  have herr : ∀ (v : Verifier) (b : Json) (e : String), b.isNull = false →
      v (b.field "idToken") = .error e →
      responses (verifyIdTokenHandler v (some b)).actions
        = [⟨401, .error "Invalid token"⟩] := by
    intro v b e hb h
    rw [handler_error v b hb e h]
    rfl
  refine ⟨?_, fun d => hok _ _ d hbody, fun e => herr _ _ e hbody, ?_, ?_⟩
  · cases h : verifyIdToken (reqBody.field "idToken") with
    | error e => rw [handler_error _ _ hbody e h]
    | ok d => rw [handler_ok _ _ hbody d h]
  · cases h : verifyIdToken (reqBody.field "idToken") with
    | error e =>
        refine ⟨_, herr _ _ e hbody h, Or.inr rfl, ?_⟩
        constructor
        · intro h200; exact absurd h200 (by decide)
        · rintro ⟨d, hd⟩; cases hd
    | ok d =>
        exact ⟨_, hok _ _ d hbody h, Or.inl rfl, fun _ => ⟨d, rfl⟩, fun _ => rfl⟩
  · intro v2 body2 d1 d2 hb2 h1 h2 huid
    refine ⟨d1.email, d2.email, hok _ _ d1 hbody h1, ?_⟩
    rw [hok _ _ d2 hb2 h2, huid]

/-- C1 amended, at the token `"good"` and at a body without idToken. -/
theorem verifyIdToken_answers_once_witness :
    responses (verifyIdTokenHandler sampleVerifier
        (some (.obj [("idToken", .str "good")]))).actions
      = [⟨200, .identity "u1" (some "a@b.com")⟩] ∧
    responses (verifyIdTokenHandler sampleVerifier (some (.obj []))).actions
      = [⟨401, .error "Invalid token"⟩] :=
  ⟨(verifyIdToken_answers_once sampleVerifier (.obj [("idToken", .str "good")]) rfl).2.1
      ⟨"u1", some "a@b.com"⟩ rfl,
   (verifyIdToken_answers_once sampleVerifier (.obj []) rfl).2.2.1
      "Decoding Firebase ID token failed" rfl⟩

/-- C2 as stated fails: on a body without idToken, on one whose idToken is a
number and on one whose idToken is the empty string, the handler does call
the verifier (once each). -/
theorem verifyIdToken_no_fail_fast :
    malformedIdToken ((Json.obj []).field "idToken") = true ∧
    (verifierCalls (verifyIdTokenHandler sampleVerifier (some (.obj []))).actions).length = 1 ∧
    malformedIdToken ((Json.obj [("idToken", .num 7)]).field "idToken") = true ∧
    (verifierCalls (verifyIdTokenHandler sampleVerifier
        (some (.obj [("idToken", .num 7)]))).actions).length = 1 ∧
    malformedIdToken ((Json.obj [("idToken", .str "")]).field "idToken") = true ∧
    (verifierCalls (verifyIdTokenHandler sampleVerifier
        (some (.obj [("idToken", .str "")]))).actions).length = 1 := by
  refine ⟨rfl, rfl, rfl, rfl, rfl, rfl⟩

/-- C2, amended. For every request whose `req.body` is neither `undefined`
nor `null` and whose idToken is missing, is not a string or is the empty
string, the handler has no check of its own: it passes the idToken as
received to the verifier, exactly once, and answers
`401 {error: 'Invalid token'}` exactly once whenever the verifier rejects it. -/
theorem verifyIdToken_malformed_delegates (verifyIdToken : Verifier) (reqBody : Json)
    (hbody : reqBody.isNull = false)
    (_hmal : malformedIdToken (reqBody.field "idToken") = true) :
    verifierCalls (verifyIdTokenHandler verifyIdToken (some reqBody)).actions
      = [reqBody.field "idToken"] ∧
    (∀ e, verifyIdToken (reqBody.field "idToken") = .error e →
      responses (verifyIdTokenHandler verifyIdToken (some reqBody)).actions
        = [⟨401, .error "Invalid token"⟩] ∧
      (verifyIdTokenHandler verifyIdToken (some reqBody)).thrown = none) := by
  constructor
  · cases h : verifyIdToken (reqBody.field "idToken") with
    | error e => rw [handler_error _ _ hbody e h]; rfl
    | ok d => rw [handler_ok _ _ hbody d h]; rfl
  · intro e h
    rw [handler_error _ _ hbody e h]
    exact ⟨rfl, rfl⟩

/-- C2 amended, at a body without idToken. -/
theorem verifyIdToken_malformed_delegates_witness :
    malformedIdToken ((Json.obj []).field "idToken") = true ∧
    (verifierCalls (verifyIdTokenHandler sampleVerifier (some (.obj []))).actions).length = 1 ∧
    responses (verifyIdTokenHandler sampleVerifier (some (.obj []))).actions
      = [⟨401, .error "Invalid token"⟩] :=
  ⟨rfl,
    by rw [(verifyIdToken_malformed_delegates sampleVerifier (.obj []) rfl rfl).1]; rfl,
    ((verifyIdToken_malformed_delegates sampleVerifier (.obj []) rfl rfl).2
      "Decoding Firebase ID token failed" rfl).1⟩

/-! ## Theorems: `src/supabaseClient.js` -/

theorem upsert_table_eq (row : ProfileRow) (table : Profiles) :
    (upsert row table).table =
      if table.any (fun r => r.id == row.id) then table.map (mergeRow row)
      else table ++ [row] := by
  unfold upsert mergeRow
  split <;> rfl

theorem mergeRow_id (row r : ProfileRow) : (mergeRow row r).id = r.id := by
  unfold mergeRow
  split <;> rfl

theorem mergeRow_of_eq (row r : ProfileRow) (h : r.id = row.id) : mergeRow row r = row := by
  cases row; cases r
  simp only at h
  simp [mergeRow, h]

theorem mergeRow_of_ne (row r : ProfileRow) (h : r.id ≠ row.id) : mergeRow row r = r := by
  simp [mergeRow, h]

theorem map_mergeRow_of_absent (row : ProfileRow) (table : Profiles)
    (h : ∀ r ∈ table, r.id ≠ row.id) : table.map (mergeRow row) = table := by
  induction table with
  | nil => rfl
  | cons r rest ih =>
      simp only [List.map_cons]
      rw [mergeRow_of_ne row r (h r (List.mem_cons_self _ _)),
        ih (fun x hx => h x (List.mem_cons_of_mem _ hx))]

theorem rowsWithId_of_absent (id : String) (table : Profiles)
    (h : ∀ r ∈ table, r.id ≠ id) : rowsWithId id table = [] := by
  unfold rowsWithId
  simp only [List.filter_eq_nil_iff, beq_iff_eq]
  exact h

theorem rowsWithId_map_mergeRow (row : ProfileRow) (table : Profiles)
    (huniq : UniqueIds table) (hmem : ∃ r ∈ table, r.id = row.id) :
    rowsWithId row.id (table.map (mergeRow row)) = [row] := by
  induction table with
  | nil => obtain ⟨r, hr, _⟩ := hmem; cases hr
  | cons r rest ih =>
      unfold UniqueIds at huniq
      simp only [List.map_cons, List.nodup_cons, List.mem_map, not_exists, not_and] at huniq
      by_cases hr : r.id = row.id
      · have habs : ∀ x ∈ rest, x.id ≠ row.id := fun x hx hxe => huniq.1 x hx (hxe.trans hr.symm)
        simp only [List.map_cons]
        rw [mergeRow_of_eq row r hr, map_mergeRow_of_absent row rest habs]
        have := rowsWithId_of_absent row.id rest habs
        unfold rowsWithId at this ⊢
        simp [List.filter_cons, this]
      · have hmem2 : ∃ x ∈ rest, x.id = row.id := by
          obtain ⟨x, hx, hxe⟩ := hmem
          rcases List.mem_cons.1 hx with rfl | hx
          · exact absurd hxe hr
          · exact ⟨x, hx, hxe⟩
        have := ih huniq.2 hmem2
        simp only [List.map_cons]
        rw [mergeRow_of_ne row r hr]
        unfold rowsWithId at this ⊢
        simp [List.filter_cons, hr, this]

theorem rowsWithOtherId_map_mergeRow (row : ProfileRow) (table : Profiles) :
    rowsWithOtherId row.id (table.map (mergeRow row)) = rowsWithOtherId row.id table := by
  induction table with
  | nil => rfl
  | cons r rest ih =>
      unfold rowsWithOtherId at ih ⊢
      by_cases hr : r.id = row.id
      · simp [List.filter_cons, mergeRow_id, hr, ih]
      · simp [List.filter_cons, mergeRow_of_ne row r hr, hr, ih]

theorem map_mergeRow_idem (row : ProfileRow) (table : Profiles) :
    (table.map (mergeRow row)).map (mergeRow row) = table.map (mergeRow row) := by
  simp only [List.map_map]
  apply List.map_congr_left
  intro r _
  by_cases hr : r.id = row.id
  · simp [mergeRow_of_eq row r hr, mergeRow_of_eq row row rfl]
  · simp [mergeRow_of_ne row r hr]

/-- The table left by an upsert: facts used by the claim on the profile sync. -/
theorem upsert_spec (row : ProfileRow) (table : Profiles) (huniq : UniqueIds table) :
    rowsWithId row.id (upsert row table).table = [row] ∧
    (upsert row (upsert row table).table).table = (upsert row table).table ∧
    rowsWithOtherId row.id (upsert row table).table = rowsWithOtherId row.id table ∧
    UniqueIds (upsert row table).table := by
  by_cases hany : table.any (fun r => r.id == row.id) = true
  · have hmem : ∃ r ∈ table, r.id = row.id := by
      simpa [List.any_eq_true] using hany
    have h1 : (upsert row table).table = table.map (mergeRow row) := by
      rw [upsert_table_eq, if_pos hany]
    have hany2 : (table.map (mergeRow row)).any (fun r => r.id == row.id) = true := by
      obtain ⟨r, hr, hre⟩ := hmem
      simp only [List.any_eq_true, List.mem_map, beq_iff_eq]
      exact ⟨mergeRow row r, ⟨r, hr, rfl⟩, by rw [mergeRow_id]; exact hre⟩
    refine ⟨?_, ?_, ?_, ?_⟩
    · rw [h1]; exact rowsWithId_map_mergeRow row table huniq hmem
    · rw [h1, upsert_table_eq, if_pos hany2, map_mergeRow_idem]
    · rw [h1]; exact rowsWithOtherId_map_mergeRow row table
    · rw [h1]
      unfold UniqueIds at huniq ⊢
      have : (table.map (mergeRow row)).map (fun r => r.id) = table.map (fun r => r.id) := by
        simp only [List.map_map]
        apply List.map_congr_left
        intro r _
        simp [mergeRow_id]
      rw [this]; exact huniq
  · have habs : ∀ r ∈ table, r.id ≠ row.id := by
      intro r hr hre
      apply hany
      simp only [List.any_eq_true, beq_iff_eq]
      exact ⟨r, hr, hre⟩
    have h1 : (upsert row table).table = table ++ [row] := by
      rw [upsert_table_eq, if_neg hany]
    have hany2 : (table ++ [row]).any (fun r => r.id == row.id) = true := by
      simp
    refine ⟨?_, ?_, ?_, ?_⟩
    · rw [h1]
      have := rowsWithId_of_absent row.id table habs
      unfold rowsWithId at this ⊢
      simp [List.filter_append, this]
    · rw [h1, upsert_table_eq, if_pos hany2, List.map_append,
        map_mergeRow_of_absent row table habs]
      simp [mergeRow_of_eq row row rfl]
    · rw [h1]
      unfold rowsWithOtherId
      simp [List.filter_append]
    · rw [h1]
      unfold UniqueIds at huniq ⊢
      simp only [List.map_append, List.map_cons, List.map_nil]
      rw [List.nodup_append]
      refine ⟨huniq, List.nodup_singleton _, ?_⟩
      intro a ha hb
      simp only [List.mem_singleton] at hb
      simp only [List.mem_map] at ha
      obtain ⟨r, hr, hre⟩ := ha
      exact habs r hr (hre.trans hb)

/-- The profile row that `syncFirebaseUserToSupabase` writes for a user. -/
theorem sync_table_eq (u : FirebaseUser) (table : Profiles) :
    (syncFirebaseUserToSupabase (some u) table).1 =
      (upsert ⟨u.uid, u.email, u.displayName, u.photoURL⟩ table).table := by
  unfold syncFirebaseUserToSupabase
  simp only
  split <;> rfl

/-- C3. On a `profiles` table with at most one row per id, for every user,
one call of `syncFirebaseUserToSupabase` leaves exactly one row with
`id = user.uid`, carrying the user's email, displayName and photoURL; a
second call with the same user leaves the table as the first call left it;
the rows with any other id are as before; and the table still has at most one
row per id. -/
theorem syncFirebaseUserToSupabase_idempotent_upsert (table : Profiles) (u : FirebaseUser)
    (huniq : UniqueIds table) :
    rowsWithId u.uid (syncFirebaseUserToSupabase (some u) table).1
      = [⟨u.uid, u.email, u.displayName, u.photoURL⟩] ∧
    (syncFirebaseUserToSupabase (some u) (syncFirebaseUserToSupabase (some u) table).1).1
      = (syncFirebaseUserToSupabase (some u) table).1 ∧
    rowsWithOtherId u.uid (syncFirebaseUserToSupabase (some u) table).1
      = rowsWithOtherId u.uid table ∧
    UniqueIds (syncFirebaseUserToSupabase (some u) table).1 := by
  simp only [sync_table_eq]
  exact upsert_spec ⟨u.uid, u.email, u.displayName, u.photoURL⟩ table huniq

/-- C3, on a table that holds a stale row of the user and a row of another user. -/
theorem syncFirebaseUserToSupabase_idempotent_upsert_witness :
    UniqueIds [⟨"u2", none, none, none⟩, ⟨"u1", some "old@b.com", none, none⟩] ∧
    (syncFirebaseUserToSupabase (some alice)
        [⟨"u2", none, none, none⟩, ⟨"u1", some "old@b.com", none, none⟩]).1
      = [⟨"u2", none, none, none⟩, ⟨"u1", some "a@b.com", some "Alice", none⟩] ∧
    rowsWithId "u1" (syncFirebaseUserToSupabase (some alice)
        [⟨"u2", none, none, none⟩, ⟨"u1", some "old@b.com", none, none⟩]).1
      = [⟨"u1", some "a@b.com", some "Alice", none⟩] :=
  ⟨by decide, by decide,
    (syncFirebaseUserToSupabase_idempotent_upsert
      [⟨"u2", none, none, none⟩, ⟨"u1", some "old@b.com", none, none⟩] alice (by decide)).1⟩

/-- C5 as stated fails: for the assertion `"assertion-1"` the artifact that
`setSupabaseSession` submits has the assertion in both roles. -/
theorem setSupabaseSession_reuses_assertion :
    submittedSessions (setSupabaseSession (fun _ => none) "assertion-1")
      = [{ access_token := "assertion-1", refresh_token := "assertion-1" }] := by
  rfl

/-- C5, amended. For every identity assertion and every outcome of
`supabase.auth.setSession`, `setSupabaseSession` submits exactly one session
artifact, and both its `access_token` and its `refresh_token` are the
assertion string. -/
theorem setSupabaseSession_submits_assertion_twice (setSession : SessionArgs → Option String)
    (firebaseToken : String) :
    submittedSessions (setSupabaseSession setSession firebaseToken)
      = [{ access_token := firebaseToken, refresh_token := firebaseToken }] := by
  unfold setSupabaseSession
  simp only
  split <;> rfl

/-! ## Theorems: `src/App.js` -/

/-- A `try`/`catch` whose handler completes normally completes normally. -/
theorem Completion.tryCatch_thrown_none {σ : Type} (body : Completion σ)
    (handler : String → σ → Completion σ) (h : ∀ e s, (handler e s).thrown = none) :
    (Completion.tryCatch body handler).thrown = none := by
  unfold Completion.tryCatch
  split
  · assumption
  · exact h _ _

/-- The profile sync never touches the React state of `App`. -/
theorem syncUserToSupabaseProfile_comp {β : Type} (env : Env β) (u : FirebaseUser)
    (w : Client AppState β) : (syncUserToSupabaseProfile env u w).state.comp = w.comp := by
  unfold syncUserToSupabaseProfile Completion.tryCatch
  simp only [Client.getIdToken, Client.fetch, Client.log, Completion.throw, Completion.normal]
  cases env.getIdToken u true w.ext with
  | mk r b =>
    cases r with
    | error e => rfl
    | ok token =>
      simp only
      cases env.fetch _ b with
      | mk fr b2 =>
        cases fr with
        | rejected e => rfl
        | resolved ok j => cases ok <;> rfl

/-- C4. Whatever the outcome of the token refresh and of the `/sync-profile`
request (it rejects, or it resolves with `ok` false or true),
`syncUserToSupabaseProfile` completes without throwing; and once
`signInWithPopup` has resolved with a user, `handleLogin` completes without
throwing and leaves that user as the current user, whatever the profile sync
and the later token refresh did. -/
theorem sync_failure_never_blocks_login {β : Type} (env : Env β) :
    (∀ (u : FirebaseUser) (w : Client AppState β),
        (syncUserToSupabaseProfile env u w).thrown = none) ∧
    (∀ (w : Client AppState β) (u : FirebaseUser) (ext1 : β),
        env.signInWithPopup w.ext = (.ok u, ext1) →
        (handleLogin env w).state.comp.user = some u ∧ (handleLogin env w).thrown = none) := by
  have hsync : ∀ (u : FirebaseUser) (w : Client AppState β),
      (syncUserToSupabaseProfile env u w).thrown = none := by
    intro u w
    unfold syncUserToSupabaseProfile
    exact Completion.tryCatch_thrown_none _ _ (fun _ _ => rfl)
  refine ⟨hsync, ?_⟩
  intro w u ext1 hsign
  constructor
  · have hc := syncUserToSupabaseProfile_comp env u { w with ext := ext1 }
    have ht := hsync u { w with ext := ext1 }
    unfold handleLogin Completion.tryCatch
    simp only [hsign, ht, Client.getIdToken, Client.update, Client.log, Completion.throw,
      Completion.normal]
    cases env.getIdToken u true (syncUserToSupabaseProfile env u { w with ext := ext1 }).state.ext with
    | mk r b => cases r <;> rfl
  · unfold handleLogin
    exact Completion.tryCatch_thrown_none _ _ (fun _ _ => rfl)

/-- C4, in a world where the token refresh fails, so that the profile sync
fails before its request and the refresh after the sign-in fails too. -/
theorem sync_failure_never_blocks_login_witness :
    (syncUserToSupabaseProfile (signedInEnv false) alice (freshClient ⟨none, false, none⟩)).state.sent.length = 0 ∧
    (handleLogin (signedInEnv false) (freshClient ⟨none, false, none⟩)).state.comp.user = some alice ∧
    (handleLogin (signedInEnv false) (freshClient ⟨none, false, none⟩)).thrown = none :=
  ⟨rfl, (sync_failure_never_blocks_login (signedInEnv false)).2
      (freshClient ⟨none, false, none⟩) alice () rfl⟩

/-! ## Theorems: `src/CalendarTasks.js` -/

/-- The `GET /tasks` request of `fetchTasks` for a given token. -/
theorem fetchTasks_sent {β : Type} (env : Env β) (w : Client CalendarState β) :
    (fetchTasks env w).state.sent = w.sent ∨
    ∃ token, (fetchTasks env w).state.sent = w.sent ++
      [{ method := "GET", url := "http://localhost:5000/tasks",
         headers := [("Authorization", "Bearer " ++ token)], body := none }] := by
  unfold fetchTasks
  simp only [Client.update]
  cases hu : env.currentUser w.ext with
  | none => left; rfl
  | some user =>
    simp only [Completion.tryFinally, Completion.tryCatch, Client.getIdToken, Client.fetch,
      Client.update, Client.log, Completion.throw, Completion.normal]
    cases env.getIdToken user false w.ext with
    | mk r b =>
      cases r with
      | error e => left; rfl
      | ok token =>
        right
        refine ⟨token, ?_⟩
        simp only
        cases env.fetch _ b with
        | mk fr b2 =>
          cases fr with
          | rejected e => rfl
          | resolved ok j =>
            cases j with
            | error e => rfl
            | ok data =>
              simp only
              cases formatEvents data <;> rfl

/-- The refresh by `fetchTasks` sends no `POST`. -/
theorem fetchTasks_tasksPosts {β : Type} (env : Env β) (w : Client CalendarState β) :
    tasksPosts (fetchTasks env w).state.sent = tasksPosts w.sent := by
  rcases fetchTasks_sent env w with h | ⟨token, h⟩
  · rw [h]
  · rw [h]
    simp [tasksPosts, List.filter_append]

/-- C6 as stated fails: with nobody signed in, on a component that shows no
error, none of the three operations sets the error state. -/
theorem signed_out_operations_report_nothing :
    signedOutEnv.currentUser () = none ∧
    (fetchTasks signedOutEnv (freshClient {})).state.comp.error = none ∧
    (handleAddTask signedOutEnv (freshClient {})).state.comp.error = none ∧
    (handleDeleteTask signedOutEnv ⟨some (.num 1), some (.str "Write report"), ⟨none⟩, ⟨none⟩⟩
        (freshClient {})).state.comp.error = none := by
  refine ⟨rfl, rfl, rfl, rfl⟩

/-- C6, amended. When nobody is signed in, each of the three task operations
returns before touching storage and without reporting anything: `fetchTasks`
sends no request, leaves the event list unchanged and leaves the error state
cleared (`null`); `handleAddTask` and `handleDeleteTask` send no request and
leave the whole component state, error included, as it was.  None of them
throws. -/
theorem signed_out_operations_touch_nothing {β : Type} (env : Env β)
    (w : Client CalendarState β) (event : CalEvent) (hout : env.currentUser w.ext = none) :
    ((fetchTasks env w).state.sent = w.sent ∧
      (fetchTasks env w).state.comp.events = w.comp.events ∧
      (fetchTasks env w).state.comp.error = none ∧
      (fetchTasks env w).thrown = none) ∧
    ((handleAddTask env w).state = w ∧ (handleAddTask env w).thrown = none) ∧
    ((handleDeleteTask env event w).state = w ∧ (handleDeleteTask env event w).thrown = none) := by
  refine ⟨?_, ?_, ?_⟩
  · unfold fetchTasks
    simp only [Client.update, hout]
    exact ⟨rfl, rfl, rfl, rfl⟩
  · unfold handleAddTask
    simp only [hout]
    exact ⟨rfl, rfl⟩
  · unfold handleDeleteTask
    simp only [hout]
    exact ⟨rfl, rfl⟩

/-- C6 amended, on a component that shows one event and an earlier error. -/
theorem signed_out_operations_touch_nothing_witness :
    (fetchTasks signedOutEnv (freshClient
        { events := [⟨some (.num 1), none, ⟨none⟩, ⟨none⟩⟩], error := some "Failed to add task." })
      ).state.comp.error = none ∧
    (fetchTasks signedOutEnv (freshClient
        { events := [⟨some (.num 1), none, ⟨none⟩, ⟨none⟩⟩], error := some "Failed to add task." })
      ).state.comp.events.length = 1 ∧
    (handleAddTask signedOutEnv (freshClient
        { events := [⟨some (.num 1), none, ⟨none⟩, ⟨none⟩⟩], error := some "Failed to add task." })
      ).state.comp.error = some "Failed to add task." := by
  have h := signed_out_operations_touch_nothing signedOutEnv (freshClient
    { events := [⟨some (.num 1), none, ⟨none⟩, ⟨none⟩⟩], error := some "Failed to add task." })
    ⟨none, none, ⟨none⟩, ⟨none⟩⟩ rfl
  exact ⟨h.1.2.2.1, by rw [h.1.2.1]; rfl, by rw [h.2.1.1]; rfl⟩

/-- C10 fails on the code: `fetchTasks` run with nobody signed in, on a
component whose loading flag is off, completes normally and leaves
`loading = true`; with a user signed in the same call ends with
`loading = false`. -/
theorem fetchTasks_signed_out_keeps_loading :
    (fetchTasks signedOutEnv (freshClient { loading := false })).thrown = none ∧
    (fetchTasks signedOutEnv (freshClient { loading := false })).state.comp.loading = true ∧
    (fetchTasks (signedInEnv true) (freshClient { loading := false })).state.comp.loading = false ∧
    (fetchTasks (signedInEnv false) (freshClient { loading := false })).state.comp.loading = false := by
  refine ⟨rfl, rfl, rfl, rfl⟩

/-- C7 as stated fails: with a user signed in, a non-empty description and a
valid date, no `POST` is sent when the user's `getIdToken` rejects. -/
theorem handleAddTask_no_post_without_token :
    (signedInEnv false).currentUser () = some alice ∧
    (tasksPosts (handleAddTask (signedInEnv false) (freshClient
        { taskDescription := "Write report",
          selectedSlot := some (.valid "2025-01-10T09:00:00.000Z") })).state.sent).length = 0 ∧
    (handleAddTask (signedInEnv false) (freshClient
        { taskDescription := "Write report",
          selectedSlot := some (.valid "2025-01-10T09:00:00.000Z") })).state.comp.error
      = some "Error adding task." := by
  refine ⟨rfl, rfl, rfl⟩

/-- C7, amended. For every signed-in user: when `taskDescription` is the empty
string, or no slot is selected, or the selected slot is an Invalid Date,
`handleAddTask` sends no request at all; and when the description is
non-empty, the slot is a valid date and the user's `getIdToken` resolves with
a token, exactly one `POST` to `/tasks` is sent, with that token as bearer and
the body `{description: taskDescription, date: the slot's ISO-8601 string}`. -/
theorem handleAddTask_validates_before_post {β : Type} (env : Env β)
    (w : Client CalendarState β) (user : FirebaseUser)
    (hin : env.currentUser w.ext = some user) :
    (w.comp.taskDescription = "" → (handleAddTask env w).state.sent = w.sent) ∧
    (w.comp.selectedSlot = none → (handleAddTask env w).state.sent = w.sent) ∧
    (w.comp.selectedSlot = some .invalid → (handleAddTask env w).state.sent = w.sent) ∧
    (∀ iso token ext1, w.comp.taskDescription ≠ "" →
        w.comp.selectedSlot = some (.valid iso) →
        env.getIdToken user false w.ext = (.ok token, ext1) →
        tasksPosts (handleAddTask env w).state.sent
          = tasksPosts w.sent ++ [addTaskRequest token w.comp.taskDescription iso]) := by
  refine ⟨?_, ?_, ?_, ?_⟩
  · intro hd
    unfold handleAddTask
    simp [hin, hd, Completion.normal]
  · intro hs
    unfold handleAddTask
    simp only [hin, hs]
    cases (w.comp.taskDescription == "") <;> rfl
  · intro hs
    unfold handleAddTask
    simp only [hin, hs]
    cases (w.comp.taskDescription == "")
    · simp only [Completion.tryCatch, Client.getIdToken, Client.log, Client.update,
        JsDate.toISOString, Completion.throw, Completion.normal]
      cases env.getIdToken user false w.ext with
      | mk r b => cases r <;> rfl
    · rfl
  · intro iso token ext1 hd hs htok
    have hd2 : (w.comp.taskDescription == "") = false := by simpa using hd
    unfold handleAddTask
    simp only [hin, hs, hd2, Completion.tryCatch, Client.getIdToken, htok,
      JsDate.toISOString, Client.fetch, Client.log, Client.update, Completion.throw,
      Completion.normal]
    cases env.fetch _ ext1 with
    | mk fr b2 =>
      cases fr with
      | rejected e => simp [tasksPosts, addTaskRequest, List.filter_append]
      | resolved ok j =>
        cases ok
        · simp [tasksPosts, addTaskRequest, List.filter_append]
        · simp only
          rw [fetchTasks_tasksPosts]
          simp [tasksPosts, addTaskRequest, List.filter_append]

/-- C7 amended, with a token that resolves: one `POST`, with the description
and the ISO-8601 text of the slot. -/
theorem handleAddTask_validates_before_post_witness :
    tasksPosts (handleAddTask (signedInEnv true) (freshClient
        { taskDescription := "Write report",
          selectedSlot := some (.valid "2025-01-10T09:00:00.000Z") })).state.sent
      = [addTaskRequest "token-u1" "Write report" "2025-01-10T09:00:00.000Z"] :=
  (handleAddTask_validates_before_post (signedInEnv true) (freshClient
        { taskDescription := "Write report",
          selectedSlot := some (.valid "2025-01-10T09:00:00.000Z") }) alice rfl).2.2.2
    "2025-01-10T09:00:00.000Z" "token-u1" () (by decide) rfl rfl

/-! ## Theorems: `src/components/PredictionComponent.js` -/

/-- C9 as stated fails: on the text `[]`, which parses as the empty array, a
request to `/predict` is sent and no error is set. -/
theorem handlePredict_forwards_empty_array :
    (signedInEnv true).jsonParse "[]" = .ok (.arr []) ∧
    nonEmptyNumericArray (.arr []) = false ∧
    (predictRequests (handlePredict (signedInEnv true)
        (freshClient { features := "[]" })).state.sent).length = 1 ∧
    (handlePredict (signedInEnv true)
        (freshClient { features := "[]" })).state.comp.error.truthy = false := by
  refine ⟨rfl, rfl, rfl, rfl⟩

/-- C9, amended. For every input text, `handlePredict` sends a request to
`/predict` exactly when the text parses as a JSON array, whatever its length
and its elements, and then sends exactly one, carrying the parsed array; for
every other text (a syntax error, or a value that is not an array) no request
is sent and the error state is set to the invalid-input message. -/
theorem handlePredict_forwards_any_array {β : Type} (env : Env β)
    (w : Client PredictionState β) :
    (∀ items, env.jsonParse w.comp.features = .ok (.arr items) →
        (handlePredict env w).state.sent = w.sent ++ [predictRequest (.arr items)]) ∧
    ((∀ items, env.jsonParse w.comp.features ≠ .ok (.arr items)) →
        (handlePredict env w).state.sent = w.sent ∧
        (handlePredict env w).state.comp.error = .str invalidInputMessage) := by
  constructor
  · intro items hp
    unfold handlePredict
    simp only [Client.update, hp, Json.isArray, Completion.tryFinally, Completion.tryCatch,
      Client.fetch, Completion.throw, Completion.normal, predictRequest]
    cases env.fetch _ w.ext with
    | mk fr b2 =>
      cases fr with
      | rejected e => rfl
      | resolved ok j =>
        cases j with
        | error e => cases ok <;> rfl
        | ok data =>
          cases ok
          · simp only [Bool.not_true, Bool.false_eq_true, if_false]
            cases data <;> rfl
          · simp only [Bool.not_true, Bool.false_eq_true, if_false]
            cases data <;> rfl
  · intro hp
    unfold handlePredict
    simp only [Client.update, Completion.tryFinally, Completion.tryCatch,
      Client.fetch, Completion.throw, Completion.normal]
    cases hparse : env.jsonParse w.comp.features with
    | error e => exact ⟨rfl, rfl⟩
    | ok parsed =>
      cases parsed with
      | arr items => exact absurd hparse (hp items)
      | null => exact ⟨rfl, rfl⟩
      | bool b => exact ⟨rfl, rfl⟩
      | num n => exact ⟨rfl, rfl⟩
      | str s => exact ⟨rfl, rfl⟩
      | obj f => exact ⟨rfl, rfl⟩

/-- C9 amended, on a text that parses as an array of numbers and on one that
parses as an object. -/
theorem handlePredict_forwards_any_array_witness :
    (handlePredict (signedInEnv true) (freshClient { features := "[1, 2]" })).state.sent
      = [predictRequest (.arr [.num 1, .num 2])] ∧
    (handlePredict (signedInEnv true) (freshClient { features := "\x7b\x7d" })).state.sent = [] :=
  ⟨(handlePredict_forwards_any_array (signedInEnv true)
      (freshClient { features := "[1, 2]" })).1 [.num 1, .num 2] rfl,
   ((handlePredict_forwards_any_array (signedInEnv true)
      (freshClient { features := "\x7b\x7d" })).2 (by intro items h; cases h)).1⟩

/-! ## Theorems: task ownership -/

theorem bearerToken_get (token : String) (m u : String) (b : Option Json) :
    bearerToken { method := m, url := u, headers := [("Authorization", "Bearer " ++ token)],
                  body := b } = some token := by
  simp [bearerToken, String.data_append, dropLeading]

theorem bearerToken_json (token : String) (m u : String) (b : Option Json) :
    bearerToken { method := m, url := u,
                  headers := [("Content-Type", "application/json"),
                              ("Authorization", "Bearer " ++ token)],
                  body := b } = some token := by
  simp [bearerToken, String.data_append, dropLeading, List.find?]

theorem formatEvents_taskJson (ts : List Task) :
    formatEvents (.arr (ts.map taskJson)) = .ok (ts.map eventOfTask) := by
  unfold formatEvents
  simp only
  induction ts with
  | nil => rfl
  | cons t rest ih =>
      simp only [List.map_cons, List.mapM_cons, ih]
      rfl

theorem createTask_ok (parsable : String → Bool) (owner d date : String) (st : TaskStore)
    (t : Task) (st1 : TaskStore) (h : createTask parsable owner d date st = .ok (t, st1)) :
    st1 = st.push owner d date := by
  unfold createTask at h
  split at h
  · cases h
  · simp only [Except.ok.injEq, Prod.mk.injEq] at h
    rw [← h.2]; rfl

theorem deleteTask_ok (owner : String) (task_id : Nat) (st st1 : TaskStore)
    (h : deleteTask owner task_id st = .ok st1) : st.Shrunk st1 := by
  unfold deleteTask at h
  split at h
  · cases h
  · split at h
    · cases h
    · simp only [Except.ok.injEq] at h
      rw [← h]
      exact ⟨rfl, fun t ht => (List.mem_filter.1 ht).1⟩

theorem tasksEndpoint_get (verify : String → Option String) (parsable : String → Bool)
    (req : HttpRequest) (st : TaskStore) (owner : String)
    (hauth : (bearerToken req).bind verify = some owner) (hm : req.method = "GET") :
    tasksEndpoint verify parsable req st
      = (.resolved true (.ok (.arr ((listTasks owner st).map taskJson))), st) := by
  unfold tasksEndpoint
  simp [hauth, hm]

theorem tasksEndpoint_post (verify : String → Option String) (parsable : String → Bool)
    (req : HttpRequest) (st : TaskStore) (owner : String)
    (hauth : (bearerToken req).bind verify = some owner) (hm : req.method = "POST") :
    (tasksEndpoint verify parsable req st).2 = st ∨
    ∃ d date, (tasksEndpoint verify parsable req st).2 = st.push owner d date := by
  unfold tasksEndpoint
  simp only [hauth, hm]
  simp only [show (("POST" : String) == "GET") = false by decide, Bool.false_eq_true,
    if_false, beq_self_eq_true, if_true]
  split
  · rename_i d date _ _
    cases hc : createTask parsable owner d date st with
    | error e => left; rfl
    | ok r => right; exact ⟨d, date, createTask_ok parsable owner d date st r.1 r.2 hc⟩
  · left; rfl

theorem tasksEndpoint_delete (verify : String → Option String) (parsable : String → Bool)
    (req : HttpRequest) (st : TaskStore) (hm : req.method = "DELETE") :
    (tasksEndpoint verify parsable req st).2 = st ∨
    st.Shrunk (tasksEndpoint verify parsable req st).2 := by
  unfold tasksEndpoint
  split
  · left; rfl
  · simp only [hm]
    simp only [show (("DELETE" : String) == "GET") = false by decide,
      show (("DELETE" : String) == "POST") = false by decide, Bool.false_eq_true,
      if_false, beq_self_eq_true, if_true]
    split
    · rename_i owner _ _ task_id _
      cases hc : deleteTask owner task_id st with
      | error e => left; rfl
      | ok st1 => right; exact deleteTask_ok owner task_id st st1 hc
    · left; rfl

theorem world_currentUser (issue : String → String) (verify : String → Option String)
    (parsable : String → Bool) (b : TaskWorld) :
    (worldEnv issue verify parsable).currentUser b = b.signedIn := rfl

theorem world_confirm (issue : String → String) (verify : String → Option String)
    (parsable : String → Bool) (title : Option Json) (b : TaskWorld) :
    (worldEnv issue verify parsable).confirm title b = (b.confirmAnswer, b) := rfl

theorem world_getIdToken {σ : Type} (issue : String → String)
    (verify : String → Option String) (parsable : String → Bool)
    (u : FirebaseUser) (f : Bool) (w : Client σ TaskWorld) :
    (w.getIdToken (worldEnv issue verify parsable) u f).2.comp = w.comp ∧
    (w.getIdToken (worldEnv issue verify parsable) u f).2.ext.store = w.ext.store ∧
    (w.getIdToken (worldEnv issue verify parsable) u f).2.ext.signedIn = w.ext.signedIn ∧
    (w.getIdToken (worldEnv issue verify parsable) u f).2.ext.confirmAnswer
      = w.ext.confirmAnswer ∧
    ∀ token, (w.getIdToken (worldEnv issue verify parsable) u f).1 = .ok token →
      token = issue u.uid := by
  simp only [Client.getIdToken, worldEnv]
  split
  · simp
  · simp only [Except.ok.injEq, true_and]
    intro token h
    exact h.symm

theorem world_fetch {σ : Type} (issue : String → String)
    (verify : String → Option String) (parsable : String → Bool)
    (req : HttpRequest) (w : Client σ TaskWorld) :
    (w.fetch (worldEnv issue verify parsable) req).2.comp = w.comp ∧
    (w.fetch (worldEnv issue verify parsable) req).2.ext.signedIn = w.ext.signedIn ∧
    (((∃ e, (w.fetch (worldEnv issue verify parsable) req).1 = .rejected e) ∧
        (w.fetch (worldEnv issue verify parsable) req).2.ext.store = w.ext.store) ∨
      ((w.fetch (worldEnv issue verify parsable) req).1,
        (w.fetch (worldEnv issue verify parsable) req).2.ext.store)
        = tasksEndpoint verify parsable req w.ext.store) := by
  simp only [Client.fetch, worldEnv]
  split <;> simp

theorem Completion.tryCatch_throw {σ : Type} (s : σ) (e : String)
    (handler : String → σ → Completion σ) :
    Completion.tryCatch (Completion.throw s e) handler = handler e s := rfl

theorem Completion.tryCatch_normal {σ : Type} (s : σ)
    (handler : String → σ → Completion σ) :
    Completion.tryCatch (Completion.normal s) handler = Completion.normal s := rfl

theorem fetchTasks_world (issue : String → String) (verify : String → Option String)
    (parsable : String → Bool) (hverify : ∀ uid, verify (issue uid) = some uid)
    (w : Client CalendarState TaskWorld) :
    (fetchTasks (worldEnv issue verify parsable) w).state.ext.store = w.ext.store ∧
    (fetchTasks (worldEnv issue verify parsable) w).state.ext.signedIn = w.ext.signedIn ∧
    (∀ A, w.ext.signedIn = some A →
      (fetchTasks (worldEnv issue verify parsable) w).state.comp.error = none →
      (fetchTasks (worldEnv issue verify parsable) w).state.comp.events
        = (listTasks A.uid w.ext.store).map eventOfTask) := by
  unfold fetchTasks
  simp only [world_currentUser, Client.update]
  cases hs : w.ext.signedIn with
  | none =>
    refine ⟨rfl, hs, ?_⟩
    intro A hA; cases hA
  | some user =>
    simp only
    have h1 := world_getIdToken issue verify parsable user false
      ({ w with comp := { loading := true, error := none, events := w.comp.events,
                          selectedSlot := w.comp.selectedSlot,
                          taskDescription := w.comp.taskDescription } } :
        Client CalendarState TaskWorld)
    revert h1
    cases Client.getIdToken (worldEnv issue verify parsable) user false _ with
    | mk r w1 =>
      intro h1
      simp only at h1
      obtain ⟨_, hst1, hsi1, _, htok⟩ := h1
      cases r with
      | error e =>
        simp only [Completion.tryCatch_throw, Completion.tryFinally, Completion.normal,
          Client.log, Client.update]
        refine ⟨hst1, hsi1.trans hs, ?_⟩
        intro A _ herr
        cases herr
      | ok token =>
        simp only
        have htoken := htok token rfl
        subst htoken
        have h2 := world_fetch issue verify parsable
          { method := "GET", url := "http://localhost:5000/tasks",
            headers := [("Authorization", "Bearer " ++ issue user.uid)], body := none } w1
        have hget := tasksEndpoint_get verify parsable
          { method := "GET", url := "http://localhost:5000/tasks",
            headers := [("Authorization", "Bearer " ++ issue user.uid)], body := none }
          w1.ext.store user.uid (by rw [bearerToken_get]; exact hverify _) rfl
        rw [hget] at h2
        revert h2
        cases Client.fetch (worldEnv issue verify parsable) _ w1 with
        | mk fr w2 =>
          intro h2
          simp only at h2
          obtain ⟨_, hsi2, h2⟩ := h2
          rcases h2 with ⟨⟨e, hfr⟩, hst2⟩ | h2
          · subst hfr
            simp only [Completion.tryCatch_throw, Completion.tryFinally, Completion.normal,
              Client.log, Client.update]
            refine ⟨hst2.trans hst1, (hsi2.trans hsi1).trans hs, ?_⟩
            intro A _ herr
            cases herr
          · simp only [Prod.mk.injEq] at h2
            obtain ⟨hfr, hst2⟩ := h2
            subst hfr
            simp only [formatEvents_taskJson, Completion.tryCatch_normal]
            simp only [Completion.tryFinally, Completion.normal, Client.log, Client.update]
            refine ⟨hst2.trans hst1, (hsi2.trans hsi1).trans hs, ?_⟩
            intro A hA _
            simp only [Option.some.injEq] at hA
            subst hA
            rw [hst1]

theorem handleAddTask_world (issue : String → String) (verify : String → Option String)
    (parsable : String → Bool) (hverify : ∀ uid, verify (issue uid) = some uid)
    (w : Client CalendarState TaskWorld) :
    (handleAddTask (worldEnv issue verify parsable) w).state.ext.signedIn = w.ext.signedIn ∧
    ((handleAddTask (worldEnv issue verify parsable) w).state.ext.store = w.ext.store ∨
      ∃ u d date, w.ext.signedIn = some u ∧
        (handleAddTask (worldEnv issue verify parsable) w).state.ext.store
          = w.ext.store.push u.uid d date) := by
  unfold handleAddTask
  simp only [world_currentUser]
  cases hs : w.ext.signedIn with
  | none => exact ⟨hs, Or.inl rfl⟩
  | some user =>
    cases hd : (w.comp.taskDescription == "") with
    | true => exact ⟨hs, Or.inl rfl⟩
    | false =>
      cases hsl : w.comp.selectedSlot with
      | none => exact ⟨hs, Or.inl rfl⟩
      | some slot =>
        simp only
        have h1 := world_getIdToken issue verify parsable user false w
        revert h1
        cases Client.getIdToken (worldEnv issue verify parsable) user false w with
        | mk r w1 =>
          intro h1
          simp only at h1
          obtain ⟨_, hst1, hsi1, _, htok⟩ := h1
          cases r with
          | error e =>
            simp only [Completion.tryCatch_throw]
            exact ⟨hsi1.trans hs, Or.inl hst1⟩
          | ok token =>
            have htoken := htok token rfl
            subst htoken
            cases slot with
            | invalid =>
              simp only [JsDate.toISOString, Completion.tryCatch_throw]
              exact ⟨hsi1.trans hs, Or.inl hst1⟩
            | valid iso =>
              simp only [JsDate.toISOString]
              have h2 := world_fetch issue verify parsable
                { method := "POST", url := "http://localhost:5000/tasks",
                  headers := [("Content-Type", "application/json"),
                              ("Authorization", "Bearer " ++ issue user.uid)],
                  body := some (.obj [("description", .str w.comp.taskDescription),
                                      ("date", .str iso)]) } w1
              have hpost := tasksEndpoint_post verify parsable
                { method := "POST", url := "http://localhost:5000/tasks",
                  headers := [("Content-Type", "application/json"),
                              ("Authorization", "Bearer " ++ issue user.uid)],
                  body := some (.obj [("description", .str w.comp.taskDescription),
                                      ("date", .str iso)]) }
                w1.ext.store user.uid (by rw [bearerToken_json]; exact hverify _) rfl
              revert h2 hpost
              cases Client.fetch (worldEnv issue verify parsable) _ w1 with
              | mk fr w2 =>
                intro h2 hpost
                simp only at h2
                obtain ⟨_, hsi2, h2⟩ := h2
                have hstore : w2.ext.store = w.ext.store ∨
                    ∃ d date, w2.ext.store = w.ext.store.push user.uid d date := by
                  rcases h2 with ⟨_, hst2⟩ | h2
                  · exact Or.inl (hst2.trans hst1)
                  · have h3 := congrArg Prod.snd h2
                    simp only at h3
                    rw [h3, ← hst1]
                    exact hpost
                have hfinal : ∀ x : Client CalendarState TaskWorld,
                    x.ext.signedIn = w2.ext.signedIn → x.ext.store = w2.ext.store →
                    x.ext.signedIn = some user ∧
                    (x.ext.store = w.ext.store ∨
                      ∃ u d date, some user = some u ∧ x.ext.store = w.ext.store.push u.uid d date) := by
                  intro x hx1 hx2
                  refine ⟨hx1.trans ((hsi2.trans hsi1).trans hs), ?_⟩
                  rw [hx2]
                  rcases hstore with h | ⟨d, date, h⟩
                  · exact Or.inl h
                  · exact Or.inr ⟨user, d, date, rfl, h⟩
                cases fr with
                | rejected e =>
                  simp only [Completion.tryCatch_throw]
                  exact hfinal _ rfl rfl
                | resolved ok j =>
                  cases ok with
                  | false =>
                    simp only [Completion.tryCatch_normal]
                    exact hfinal _ rfl rfl
                  | true =>
                    simp only [Completion.tryCatch_normal]
                    have hf := fetchTasks_world issue verify parsable hverify
                      ((w2.update (fun s => { s with taskDescription := "" })).update
                        (fun s => { s with selectedSlot := none }))
                    exact hfinal _ hf.2.1 hf.1

theorem handleDeleteTask_world (issue : String → String) (verify : String → Option String)
    (parsable : String → Bool) (hverify : ∀ uid, verify (issue uid) = some uid)
    (event : CalEvent) (w : Client CalendarState TaskWorld) :
    (handleDeleteTask (worldEnv issue verify parsable) event w).state.ext.signedIn
      = w.ext.signedIn ∧
    ((handleDeleteTask (worldEnv issue verify parsable) event w).state.ext.store = w.ext.store ∨
      w.ext.store.Shrunk
        (handleDeleteTask (worldEnv issue verify parsable) event w).state.ext.store) := by
  unfold handleDeleteTask
  simp only [world_currentUser]
  cases hs : w.ext.signedIn with
  | none => exact ⟨hs, Or.inl rfl⟩
  | some user =>
    simp only [world_confirm]
    cases hc : w.ext.confirmAnswer with
    | false => exact ⟨hs, Or.inl rfl⟩
    | true =>
      simp only
      have h1 := world_getIdToken issue verify parsable user false w
      revert h1
      cases Client.getIdToken (worldEnv issue verify parsable) user false w with
      | mk r w1 =>
        intro h1
        simp only at h1
        obtain ⟨_, hst1, hsi1, _, htok⟩ := h1
        cases r with
        | error e =>
          simp only [Completion.tryCatch_throw]
          exact ⟨hsi1.trans hs, Or.inl hst1⟩
        | ok token =>
          simp only
          have h2 := world_fetch issue verify parsable
            { method := "DELETE", url := "http://localhost:5000/tasks",
              headers := [("Content-Type", "application/json"),
                          ("Authorization", "Bearer " ++ token)],
              body := some (.obj (match event.id with
                                  | some id => [("id", id)]
                                  | none => [])) } w1
          have hdel := tasksEndpoint_delete verify parsable
            { method := "DELETE", url := "http://localhost:5000/tasks",
              headers := [("Content-Type", "application/json"),
                          ("Authorization", "Bearer " ++ token)],
              body := some (.obj (match event.id with
                                  | some id => [("id", id)]
                                  | none => [])) }
            w1.ext.store rfl
          revert h2 hdel
          cases Client.fetch (worldEnv issue verify parsable) _ w1 with
          | mk fr w2 =>
            intro h2 hdel
            simp only at h2
            obtain ⟨_, hsi2, h2⟩ := h2
            have hstore : w2.ext.store = w.ext.store ∨ w.ext.store.Shrunk w2.ext.store := by
              rcases h2 with ⟨_, hst2⟩ | h2
              · exact Or.inl (hst2.trans hst1)
              · have h3 := congrArg Prod.snd h2
                simp only at h3
                rw [h3, ← hst1]
                exact hdel
            have hfinal : ∀ x : Client CalendarState TaskWorld,
                x.ext.signedIn = w2.ext.signedIn → x.ext.store = w2.ext.store →
                x.ext.signedIn = some user ∧
                (x.ext.store = w.ext.store ∨ w.ext.store.Shrunk x.ext.store) := by
              intro x hx1 hx2
              refine ⟨hx1.trans ((hsi2.trans hsi1).trans hs), ?_⟩
              rw [hx2]
              exact hstore
            cases fr with
            | rejected e =>
              simp only [Completion.tryCatch_throw]
              exact hfinal _ rfl rfl
            | resolved ok j =>
              cases ok with
              | false =>
                simp only [Completion.tryCatch_normal]
                exact hfinal _ rfl rfl
              | true =>
                simp only [Completion.tryCatch_normal]
                have hf := fetchTasks_world issue verify parsable hverify w2
                exact hfinal _ hf.2.1 hf.1

theorem OwnershipInv.shrunk {st st1 : TaskStore} {created : List (String × Nat)}
    (h : OwnershipInv st created) (hs : st.Shrunk st1) : OwnershipInv st1 created := by
  obtain ⟨h1, h2, h3⟩ := h
  refine ⟨fun t ht => h1 t (hs.2 t ht), ?_, h3⟩
  intro p hp
  rw [hs.1]
  exact h2 p hp

theorem OwnershipInv.push {st : TaskStore} {created : List (String × Nat)}
    (h : OwnershipInv st created) (owner d date : String) :
    OwnershipInv (st.push owner d date) (created ++ [(owner, st.nextId)]) := by
  obtain ⟨h1, h2, h3⟩ := h
  refine ⟨?_, ?_, ?_⟩
  · intro t ht
    simp only [TaskStore.push, List.mem_append, List.mem_singleton] at ht
    rcases ht with ht | rfl
    · exact List.mem_append_left _ (h1 t ht)
    · exact List.mem_append_right _ (List.mem_singleton.2 rfl)
  · intro p hp
    simp only [List.mem_append, List.mem_singleton] at hp
    simp only [TaskStore.push]
    rcases hp with hp | rfl
    · exact Nat.lt_succ_of_lt (h2 p hp)
    · exact Nat.lt_succ_self _
  · intro p hp q hq hpq
    simp only [List.mem_append, List.mem_singleton] at hp hq
    rcases hp with hp | rfl <;> rcases hq with hq | rfl
    · exact h3 p hp q hq hpq
    · have := h2 p hp
      simp only at hpq
      omega
    · have := h2 q hq
      simp only at hpq
      omega
    · rfl

theorem newIds_self (st : TaskStore) : newIds st st = [] := by
  simp [newIds]

theorem newIds_push (st : TaskStore) (owner d date : String) :
    newIds st (st.push owner d date) = [st.nextId] := by
  simp [newIds, TaskStore.push, List.range']

/-- Every step of the system keeps the ownership invariant. -/
theorem System.step_inv (issue : String → String) (verify : String → Option String)
    (parsable : String → Bool) (hverify : ∀ uid, verify (issue uid) = some uid)
    (sys : System) (a : UserAction)
    (h : OwnershipInv sys.client.ext.store sys.created) :
    OwnershipInv (System.step (worldEnv issue verify parsable) sys a).client.ext.store
      (System.step (worldEnv issue verify parsable) sys a).created := by
  cases a with
  | signIn u => exact h
  | signOut => exact h
  | typeDescription text => exact h
  | selectSlot start => exact h
  | refresh =>
    simp only [System.step]
    rw [(fetchTasks_world issue verify parsable hverify sys.client).1]
    exact h
  | add =>
    simp only [System.step]
    obtain ⟨_, hstore⟩ := handleAddTask_world issue verify parsable hverify sys.client
    rcases hstore with hst | ⟨u, d, date, hu, hst⟩
    · rw [hst, newIds_self]
      cases sys.client.ext.signedIn <;> simpa using h
    · rw [hst, newIds_push, hu]
      exact h.push u.uid d date
  | delete event confirmed =>
    simp only [System.step]
    obtain ⟨_, hstore⟩ := handleDeleteTask_world issue verify parsable hverify event
      { sys.client with ext := { sys.client.ext with confirmAnswer := confirmed } }
    rcases hstore with hst | hst
    · rw [hst]; exact h
    · exact h.shrunk hst

/-- Every run of the system from a state that satisfies the ownership
invariant ends in one that does. -/
theorem System.run_inv (issue : String → String) (verify : String → Option String)
    (parsable : String → Bool) (hverify : ∀ uid, verify (issue uid) = some uid)
    (actions : List UserAction) (sys : System)
    (h : OwnershipInv sys.client.ext.store sys.created) :
    OwnershipInv (System.run (worldEnv issue verify parsable) sys actions).client.ext.store
      (System.run (worldEnv issue verify parsable) sys actions).created := by
  induction actions generalizing sys with
  | nil => exact h
  | cons a rest ih =>
    simp only [System.run, List.foldl_cons]
    exact ih _ (System.step_inv issue verify parsable hverify sys a h)

theorem sampleVerify_issue (uid : String) : sampleVerify (sampleIssue uid) = some uid := by
  simp [sampleVerify, sampleIssue, String.data_append, dropLeading]

/-- C8. For every run of the system (sign-ins and sign-outs of any users,
typing, slot selection, refreshes, additions, deletions of any event, with any
pattern of failing token and HTTP requests) from an empty Task Store, and for
every two distinct subjects A and B: when A is signed in and `fetchTasks`
obtains the task list (it ends without an error), every event it installs is
a task that was created by `handleAddTask` with A signed in, and none is a
task created by `handleAddTask` with B signed in. -/
theorem task_ownership_isolation (issue : String → String) (verify : String → Option String)
    (parsable : String → Bool) (hverify : ∀ uid, verify (issue uid) = some uid)
    (faults : List Bool) (actions : List UserAction) (A : FirebaseUser) (B : String)
    (hAB : A.uid ≠ B)
    (hA : (System.run (worldEnv issue verify parsable) (System.initial faults) actions
            ).client.ext.signedIn = some A)
    (hok : (fetchTasks (worldEnv issue verify parsable)
              (System.run (worldEnv issue verify parsable) (System.initial faults) actions).client
            ).state.comp.error = none) :
    ∀ e ∈ (fetchTasks (worldEnv issue verify parsable)
              (System.run (worldEnv issue verify parsable) (System.initial faults) actions).client
            ).state.comp.events,
      ∃ i : Nat, e.id = some (.num i) ∧
        (A.uid, i) ∈ (System.run (worldEnv issue verify parsable) (System.initial faults)
                        actions).created ∧
        (B, i) ∉ (System.run (worldEnv issue verify parsable) (System.initial faults)
                    actions).created := by
  have hinv := System.run_inv issue verify parsable hverify actions (System.initial faults)
    (by simp [OwnershipInv, System.initial])
  intro e he
  rw [(fetchTasks_world issue verify parsable hverify _).2.2 A hA hok] at he
  simp only [List.mem_map] at he
  obtain ⟨t, ht, rfl⟩ := he
  have hmem := (List.mem_filter.1 ht).1
  have hown : t.owner_id = A.uid := by simpa using (List.mem_filter.1 ht).2
  have hcreated := hinv.1 t hmem
  rw [hown] at hcreated
  refine ⟨t.id, rfl, hcreated, ?_⟩
  intro hB
  exact hAB (hinv.2.2 _ hcreated _ hB rfl)

/-- C8, on a run in which alice and bob each add a task and alice signs in
again: the list obtained for alice holds task 0 only, task 1 being bob's. -/
theorem task_ownership_isolation_witness :
    (System.run (worldEnv sampleIssue sampleVerify (fun _ => true)) (System.initial [])
        [.signIn alice, .typeDescription "Write report",
         .selectSlot (.valid "2025-01-10T09:00:00.000Z"), .add,
         .signIn bob, .typeDescription "Call home",
         .selectSlot (.valid "2025-01-11T09:00:00.000Z"), .add,
         .signIn alice]).created = [("u1", 0), ("u2", 1)] ∧
    ∀ e ∈ (fetchTasks (worldEnv sampleIssue sampleVerify (fun _ => true))
        (System.run (worldEnv sampleIssue sampleVerify (fun _ => true)) (System.initial [])
          [.signIn alice, .typeDescription "Write report",
           .selectSlot (.valid "2025-01-10T09:00:00.000Z"), .add,
           .signIn bob, .typeDescription "Call home",
           .selectSlot (.valid "2025-01-11T09:00:00.000Z"), .add,
           .signIn alice]).client).state.comp.events,
      ∃ i : Nat, e.id = some (.num i) ∧
        ("u1", i) ∈ (System.run (worldEnv sampleIssue sampleVerify (fun _ => true))
          (System.initial [])
          [.signIn alice, .typeDescription "Write report",
           .selectSlot (.valid "2025-01-10T09:00:00.000Z"), .add,
           .signIn bob, .typeDescription "Call home",
           .selectSlot (.valid "2025-01-11T09:00:00.000Z"), .add,
           .signIn alice]).created ∧
        ("u2", i) ∉ (System.run (worldEnv sampleIssue sampleVerify (fun _ => true))
          (System.initial [])
          [.signIn alice, .typeDescription "Write report",
           .selectSlot (.valid "2025-01-10T09:00:00.000Z"), .add,
           .signIn bob, .typeDescription "Call home",
           .selectSlot (.valid "2025-01-11T09:00:00.000Z"), .add,
           .signIn alice]).created :=
  ⟨by decide,
   task_ownership_isolation sampleIssue sampleVerify (fun _ => true) sampleVerify_issue []
    [.signIn alice, .typeDescription "Write report",
     .selectSlot (.valid "2025-01-10T09:00:00.000Z"), .add,
     .signIn bob, .typeDescription "Call home",
     .selectSlot (.valid "2025-01-11T09:00:00.000Z"), .add,
     .signIn alice] alice "u2" (by decide) (by decide) (by decide)⟩

end AiCalendar
